import Mathlib

/-!  Verification of the request-execution / error-normalization core and the
search-query codec of the PenguinMod-ApiModule HTTP client.

JavaScript strings are modelled as lists of characters (`JStr`), JavaScript
and JSON values as the inductive `JSVal`, and the asynchronous request
executors as pure functions of an explicitly supplied transport outcome.
`JSON.parse` is modelled by an executable JSON parser (`parseJSON`); JSON
numbers are represented exactly as mantissa × 10^exponent. -/

/-- A JavaScript string, modelled as its list of characters. -/
abbrev JStr := List Char

/-- Turn a Lean string literal into a `JStr`. -/
def jstr (s : String) : JStr := s.data

/-- JS object-property assignment on an insertion-ordered association list:
`obj[k] = v` overwrites the value in place when `k` is already a key and
appends the pair otherwise. -/
def setKeyG {α : Type} : List (JStr × α) → JStr → α → List (JStr × α)
  | [], k, v => [(k, v)]
  | p :: rest, k, v => if p.1 = k then (k, v) :: rest else p :: setKeyG rest k v

/-- First-match association-list lookup (keys stay unique in every use here,
because objects are only ever built through `setKeyG`). -/
def lookupG {α : Type} : List (JStr × α) → JStr → Option α
  | [], _ => none
  | p :: rest, k => if p.1 = k then some p.2 else lookupG rest k

/-- A JavaScript value as far as this module manipulates one: JSON values plus
`undefined`.  A number is kept exactly as mantissa × 10^exponent. -/
inductive JSVal : Type where
  | null : JSVal
  | undefined : JSVal
  | bool : Bool → JSVal
  | num : Int → Int → JSVal
  | str : JStr → JSVal
  | arr : List JSVal → JSVal
  | obj : List (JStr × JSVal) → JSVal

/-- JS truthiness of a value (`if (v)`). -/
def truthy : JSVal → Bool
  | .null => false
  | .undefined => false
  | .bool b => b
  | .num m _ => decide (m ≠ 0)
  | .str s => !s.isEmpty
  | .arr _ => true
  | .obj _ => true

/-- JS property read `v[k]`: a field of an object, `undefined` otherwise
(the non-object values reachable here have no own properties). -/
def getField (v : JSVal) (k : JStr) : JSVal :=
  match v with
  | .obj fields =>
    match lookupG fields k with
    | some w => w
    | none => .undefined
  | _ => .undefined

/-- A host (JavaScript runtime) exception: its `name` and `message`. -/
structure JSErr where
  name : JStr
  msg : JStr
deriving DecidableEq

/-- Whitespace accepted between JSON tokens (RFC 8259: space, tab, LF, CR). -/
def jsonWs (c : Char) : Bool :=
  c = ' ' || c = '\t' || c = '\n' || c = '\r'

/-- Drop leading JSON whitespace. -/
def skipWsJ : JStr → JStr
  | [] => []
  | c :: rest => if jsonWs c then skipWsJ rest else c :: rest

/-- Value of a hexadecimal digit, if the character is one. -/
def hexDigitVal (c : Char) : Option Nat :=
  if c.isDigit then some (c.toNat - 48)
  else if 97 ≤ c.toNat && c.toNat ≤ 102 then some (c.toNat - 87)
  else if 65 ≤ c.toNat && c.toNat ≤ 70 then some (c.toNat - 55)
  else none

/-- Single-character JSON string escapes (everything but `\u`). -/
def escChar (c : Char) : Option Char :=
  if c = '"' then some '"'
  else if c = '\\' then some '\\'
  else if c = '/' then some '/'
  else if c = 'b' then some '\x08'
  else if c = 'f' then some '\x0c'
  else if c = 'n' then some '\n'
  else if c = 'r' then some '\r'
  else if c = 't' then some '\t'
  else none

/-- Parse the body of a JSON string after the opening quote; returns the
decoded content and the remainder after the closing quote.  Raw control
characters are rejected, as `JSON.parse` rejects them. -/
def pString : Nat → JStr → Option (JStr × JStr)
  | 0, _ => none
  | _, [] => none
  | Nat.succ fuel, c :: rest =>
    if c = '"' then some ([], rest)
    else if c.toNat < 32 then none
    else if c = '\\' then
      match rest with
      | [] => none
      | e :: r2 =>
        if e = 'u' then
          match r2 with
          | a :: b :: c3 :: d :: r3 =>
            match hexDigitVal a, hexDigitVal b, hexDigitVal c3, hexDigitVal d with
            | some x1, some x2, some x3, some x4 =>
              (pString fuel r3).map
                (fun q => (Char.ofNat (((x1 * 16 + x2) * 16 + x3) * 16 + x4) :: q.1, q.2))
            | _, _, _, _ => none
          | _ => none
        else
          match escChar e with
          | some ec => (pString fuel r2).map (fun q => (ec :: q.1, q.2))
          | none => none
    else (pString fuel rest).map (fun q => (c :: q.1, q.2))

/-- Decimal digits to a natural number. -/
def digitsToNat (ds : JStr) : Nat :=
  ds.foldl (fun a c => a * 10 + (c.toNat - 48)) 0

/-- Parse a JSON number (full RFC 8259 grammar: sign, integer part without a
leading zero, optional fraction, optional exponent), kept exactly as
mantissa × 10^exponent. -/
def pNum (s : JStr) : Option (JSVal × JStr) :=
  let snag :=
    match s with
    | c :: r => if c = '-' then (true, r) else (false, s)
    | [] => (false, ([] : JStr))
  let neg := snag.1
  match snag.2 with
  | [] => none
  | c :: r =>
    if !c.isDigit then none
    else
      let ip := if c = '0' then ([c], r) else (c :: r.takeWhile Char.isDigit, r.dropWhile Char.isDigit)
      let intDs := ip.1
      let fr : Option (JStr × JStr) :=
        match ip.2 with
        | '.' :: r2 =>
          let ds := r2.takeWhile Char.isDigit
          if ds.isEmpty then none else some (ds, r2.dropWhile Char.isDigit)
        | other => some ([], other)
      match fr with
      | none => none
      | some (fracDs, r3) =>
        let ex : Option (Int × JStr) :=
          match r3 with
          | e :: r4 =>
            if e = 'e' || e = 'E' then
              let sg :=
                match r4 with
                | c2 :: r6 =>
                  if c2 = '+' then ((1 : Int), r6)
                  else if c2 = '-' then ((-1 : Int), r6)
                  else ((1 : Int), r4)
                | [] => ((1 : Int), r4)
              let ds := sg.2.takeWhile Char.isDigit
              if ds.isEmpty then none
              else some (sg.1 * (digitsToNat ds : Int), sg.2.dropWhile Char.isDigit)
            else some (0, r3)
          | [] => some (0, r3)
        match ex with
        | none => none
        | some (expv, r7) =>
          let mago : Int := (digitsToNat (intDs ++ fracDs) : Int)
          some (.num (if neg then -mago else mago) (expv - (fracDs.length : Int)), r7)

mutual

/-- Parse one JSON value (fuel-based recursion; the fuel passed by `parseJSON`
is always sufficient, so the parser is total over the real grammar). -/
def pVal : Nat → JStr → Option (JSVal × JStr)
  | 0, _ => none
  | Nat.succ fuel, s =>
    match skipWsJ s with
    | [] => none
    | c :: rest =>
      if c = '"' then (pString (rest.length + 1) rest).map (fun q => (JSVal.str q.1, q.2))
      else if c = '\x7b' then
        match skipWsJ rest with
        | '\x7d' :: r2 => some (.obj [], r2)
        | r2p => pMembers fuel r2p []
      else if c = '[' then
        match skipWsJ rest with
        | ']' :: r2 => some (.arr [], r2)
        | r2p => (pElems fuel r2p).map (fun q => (JSVal.arr q.1, q.2))
      else if c = 't' then
        match rest with
        | 'r' :: 'u' :: 'e' :: r => some (.bool true, r)
        | _ => none
      else if c = 'f' then
        match rest with
        | 'a' :: 'l' :: 's' :: 'e' :: r => some (.bool false, r)
        | _ => none
      else if c = 'n' then
        match rest with
        | 'u' :: 'l' :: 'l' :: r => some (.null, r)
        | _ => none
      else pNum (c :: rest)

/-- Parse the members of a JSON object after the opening brace; duplicate keys
overwrite in place, as `JSON.parse` keeps the last occurrence. -/
def pMembers : Nat → JStr → List (JStr × JSVal) → Option (JSVal × JStr)
  | 0, _, _ => none
  | Nat.succ fuel, s, acc =>
    match skipWsJ s with
    | '"' :: r =>
      match pString (r.length + 1) r with
      | none => none
      | some (key, r2) =>
        match skipWsJ r2 with
        | ':' :: r3 =>
          match pVal fuel r3 with
          | none => none
          | some (v, r4) =>
            match skipWsJ r4 with
            | ',' :: r5 => pMembers fuel r5 (setKeyG acc key v)
            | '\x7d' :: r5 => some (.obj (setKeyG acc key v), r5)
            | _ => none
        | _ => none
    | _ => none

/-- Parse the elements of a non-empty JSON array after the opening bracket. -/
def pElems : Nat → JStr → Option (List JSVal × JStr)
  | 0, _ => none
  | Nat.succ fuel, s =>
    match pVal fuel s with
    | none => none
    | some (v, r) =>
      match skipWsJ r with
      | ',' :: r2 => (pElems fuel r2).map (fun q => (v :: q.1, q.2))
      | ']' :: r2 => some ([v], r2)
      | _ => none

end

/-- The host exception raised by a failing `JSON.parse`. -/
def jsonSyntaxError : JSErr :=
  ⟨jstr "SyntaxError", jstr "Unexpected token in JSON"⟩

/-- The host primitive `JSON.parse`: a value surrounded by optional
whitespace, or a `SyntaxError`. -/
def parseJSON (s : JStr) : Except JSErr JSVal :=
  match pVal (2 * s.length + 4) s with
  | some (v, rest) =>
    match skipWsJ rest with
    | [] => .ok v
    | _ => .error jsonSyntaxError
  | none => .error jsonSyntaxError

/-- `safeParseJSON` from `src/misc/utils.js`: `JSON.parse` under `try`, falling
back to `{}` when `forceObject` is truthy and to the input text otherwise.
The call sites in the request executors omit `forceObject` (so it is falsy). -/
def safeParseJSON (possibleJson : JStr) (forceObject : Bool) : JSVal :=
  match parseJSON possibleJson with
  | .ok v => v
  | .error _ => if forceObject then .obj [] else .str possibleJson

/-- The character set removed by JavaScript `String.prototype.trim`
(WhiteSpace and LineTerminator code points). -/
def jsIsWhite (c : Char) : Bool :=
  let n := c.toNat
  (9 ≤ n && n ≤ 13) || n = 32 || n = 160 || n = 0x1680 ||
    (0x2000 ≤ n && n ≤ 0x200a) || n = 0x2028 || n = 0x2029 ||
    n = 0x202f || n = 0x205f || n = 0x3000 || n = 0xfeff

/-- JS `s.trim()`: strip `jsIsWhite` characters from both ends. -/
def jsTrim (s : JStr) : JStr :=
  ((s.dropWhile jsIsWhite).reverse.dropWhile jsIsWhite).reverse

/-- Helper for `splitOnSpace`: the first word (up to the first space) and the
remaining words. -/
def splitAux : JStr → JStr × List JStr
  | [] => ([], [])
  | c :: rest =>
    let r := splitAux rest
    if c = ' ' then ([], r.1 :: r.2) else (c :: r.1, r.2)

/-- JS `s.split(" ")`: split at every single space character; the result is
never empty, and `"".split(" ")` is `[""]`. -/
def splitOnSpace (s : JStr) : List JStr :=
  (splitAux s).1 :: (splitAux s).2

/-- JS `words.join(" ")`. -/
def joinSpace : List JStr → JStr
  | [] => []
  | [w] => w
  | w :: ws => w ++ ' ' :: joinSpace ws

/-- JS `word.split(/:(.*)/s)` destructured to `[modifier, value]`: the text
before the first colon and everything after it.  Call sites guard on
`word.includes(":")`, so the no-colon case is never reached. -/
def splitFirstColon : JStr → JStr × JStr
  | [] => ([], [])
  | c :: rest =>
    if c = ':' then ([], rest)
    else
      let r := splitFirstColon rest
      (c :: r.1, r.2)

/-- A value stored under a modifier key of a `SearchQuery`: a boolean or a
string (the only value shapes `extractQuery` produces). -/
inductive QVal : Type where
  | bool : Bool → QVal
  | str : JStr → QVal
deriving DecidableEq, Repr

/-- The `SearchQuery` object: a JS object modelled as an insertion-ordered
association list with unique keys (it is only built through `setKeyG`). -/
abbrev SearchQuery := List (JStr × QVal)

/-- The value coercion of `extractQuery`: the literal strings `"true"` and
`"false"` become booleans, a value that trims to the empty string becomes
`true`, and everything else stays a string. -/
def castValue (value : JStr) : QVal :=
  if value = jstr "true" then .bool true
  else if value = jstr "false" then .bool false
  else if jsTrim value = [] then .bool true
  else .str value

/-- The modifier filter of `extractQuery`:
`!limitTags ? true : (whitelist ? limitTags.includes(m) : !limitTags.includes(m))`.
Only `null`/`undefined` (here `none`) take the first branch — an empty array
is truthy in JS. -/
def isAllowed (limitTags : Option (List JStr)) (whitelist : Bool) (modifier : JStr) : Bool :=
  match limitTags with
  | none => true
  | some tags => if whitelist then tags.contains modifier else !tags.contains modifier

/-- JS `word.includes(":")`. -/
def hasColon : JStr → Bool
  | [] => false
  | c :: rest => c = ':' || hasColon rest

/-- The token loop of `extractQuery`: `rq` accumulates the admitted modifiers
(the source object `resultingQuery`), `cq` the free-text tokens (the source
array `cleanQuery`), in order. -/
def extractGo (limitTags : Option (List JStr)) (whitelist : Bool) :
    List JStr → SearchQuery → List JStr → SearchQuery × List JStr
  | [], rq, cq => (rq, cq)
  | w :: ws, rq, cq =>
    if hasColon w then
      let m := (splitFirstColon w).1
      let v := (splitFirstColon w).2
      if isAllowed limitTags whitelist m then
        extractGo limitTags whitelist ws (setKeyG rq m (castValue v)) cq
      else extractGo limitTags whitelist ws rq (cq ++ [w])
    else extractGo limitTags whitelist ws rq (cq ++ [w])

/-- `PenguinModDiscovery.extractQuery` from `src/classes/PenguinModDiscovery.js`:
split on spaces, admit `modifier:value` tokens through the filter, keep the
rest as free text, and return `{...resultingQuery, query: cleanQuery.join(" ")}`
(the spread-then-assign is `setKeyG`, overwriting any admitted `query:` key). -/
def PenguinModDiscovery.extractQuery
    (query : JStr) (limitTags : Option (List JStr)) (whitelist : Bool) : SearchQuery :=
  let r := extractGo limitTags whitelist (splitOnSpace query) [] []
  setKeyG r.1 (jstr "query") (.str (joinSpace r.2))

/-- JS stringification of a `QVal` under template interpolation. -/
def renderVal : QVal → JStr
  | .bool true => jstr "true"
  | .bool false => jstr "false"
  | .str s => s

/-- `PenguinModDiscovery.createQuery`: emit `modifier:value` for every key
other than `query`, then the words of `query` unless it is empty, joined by
single spaces.  A `SearchQuery` whose `query` key is missing or non-string
makes the source throw (`searchQuery.query.split` on a non-string), modelled
as `none`. -/
def PenguinModDiscovery.createQuery (searchQuery : SearchQuery) : Option JStr :=
  let mods := (searchQuery.filter (fun p => !decide (p.1 = jstr "query"))).map
    (fun p => p.1 ++ ':' :: renderVal p.2)
  match lookupG searchQuery (jstr "query") with
  | some (.str q) => some (joinSpace (if q = [] then mods else mods ++ splitOnSpace q))
  | _ => none

example : PenguinModDiscovery.extractQuery (jstr "hello by:John123 world") none false =
    [(jstr "by", .str (jstr "John123")), (jstr "query", .str (jstr "hello world"))] := by rfl

example : PenguinModDiscovery.extractQuery (jstr "reverse: hi") none false =
    [(jstr "reverse", .bool true), (jstr "query", .str (jstr "hi"))] := by rfl

example : PenguinModDiscovery.extractQuery (jstr "by:John secret") (some [jstr "secret"]) true =
    [(jstr "query", .str (jstr "by:John secret"))] := by rfl

example : PenguinModDiscovery.createQuery
    [(jstr "query", .str (jstr "hello")), (jstr "by", .str (jstr "John"))] =
    some (jstr "by:John hello") := by rfl

example : parseJSON (jstr "\x7b\"a\":1\x7d") = .ok (.obj [(jstr "a", .num 1 0)]) := by rfl

example : parseJSON (jstr "not-json") = .error jsonSyntaxError := by rfl

example : parseJSON (jstr " [1, true, \"x\", -2.5e1, null] ") =
    .ok (.arr [.num 1 0, .bool true, .str (jstr "x"), .num (-25) 0, .null]) := by rfl

/-- Decimal digits of a natural number. -/
def natToStr (n : Nat) : JStr := Nat.toDigits 10 n

/-- Decimal rendering of an integer. -/
def intToStr (m : Int) : JStr :=
  if m < 0 then '-' :: natToStr m.natAbs else natToStr m.natAbs

/-- JS `words.join(",")` (array stringification). -/
def joinComma : List JStr → JStr
  | [] => []
  | [w] => w
  | w :: ws => w ++ ',' :: joinComma ws

mutual

/-- JS `String(v)` on a `JSVal`.  A non-integer number is rendered in
mantissa-e-exponent form, an approximation of the host float rendering — no
claim exercises it. -/
def jsValToStr : JSVal → JStr
  | .null => jstr "null"
  | .undefined => jstr "undefined"
  | .bool true => jstr "true"
  | .bool false => jstr "false"
  | .num m e => intToStr m ++ (if e = 0 then [] else 'e' :: intToStr e)
  | .str s => s
  | .arr xs => joinComma (jsArrToStrs xs)
  | .obj _ => jstr "[object Object]"

/-- Array stringification: elements rendered in turn, with `null` and
`undefined` elements rendered empty, as `Array.prototype.toString` does. -/
def jsArrToStrs : List JSVal → List JStr
  | [] => []
  | .null :: xs => [] :: jsArrToStrs xs
  | .undefined :: xs => [] :: jsArrToStrs xs
  | x :: xs => jsValToStr x :: jsArrToStrs xs

end

/-- The fetch options relevant to this module: `method` and `headers`
(both optional in a `RequestInit`). -/
structure ReqOptions where
  method : Option JStr
  headers : Option (List (JStr × JStr))
deriving DecidableEq

/-- A fetch `Response` as far as the executor reads it: its status and the
outcomes of its two body readers, `text()` and `arrayBuffer()`. -/
structure FResponse where
  status : Nat
  textResult : Except JSErr JStr
  bufResult : Except JSErr (List Nat)

/-- `response.ok`: status in the inclusive range 200–299. -/
def FResponse.ok (r : FResponse) : Bool :=
  200 ≤ r.status && r.status ≤ 299

/-- An axios response: its status and its `data`, already decoded by axios
into a string/JSON value or an `ArrayBuffer`. -/
inductive AxData : Type where
  | jsv : JSVal → AxData
  | buf : List Nat → AxData

structure AxResponse where
  status : Nat
  data : AxData

/-- An axios rejection: a host error plus axios's `isCancel` mark and the
optional response obtained alongside the failure. -/
structure AxError where
  name : JStr
  msg : JStr
  isCancel : Bool
  response : Option AxResponse

/-- Any JavaScript runtime value that can reach an error-model field: a plain
value, a host error, an axios error, a response handle, or a buffer. -/
inductive RVal : Type where
  | jsv : JSVal → RVal
  | err : JSErr → RVal
  | axErr : AxError → RVal
  | fetchResp : FResponse → RVal
  | axResp : AxResponse → RVal
  | buf : List Nat → RVal

/-- JS `String(name-and-message error)`. -/
def errToStr (name msg : JStr) : JStr :=
  if msg.isEmpty then name else name ++ ':' :: ' ' :: msg

/-- JS `String(v)` on any runtime value reaching the `detail` field. -/
def jsToString : RVal → JStr
  | .jsv v => jsValToStr v
  | .err e => errToStr e.name e.msg
  | .axErr e => errToStr e.name e.msg
  | .fetchResp _ => jstr "[object Response]"
  | .axResp _ => jstr "[object Object]"
  | .buf _ => jstr "[object ArrayBuffer]"

/-- The `PenguinModAPIError` class of `src/classes/PenguinModAPIError.js`: the
uniform error model.  The constructor stores `message` and the structured
`data` as given, `String(detail)` in `detail`, the `parsingError` flag in
`parsing` and the original `error` in `cause`. -/
structure PenguinModAPIError where
  message : JSVal
  detail : JStr
  httpCode : JSVal
  data : RVal
  parsing : Bool
  url : JStr
  request : Option ReqOptions
  response : Option FResponse
  cause : RVal

/-- Static `PenguinModAPIError.UNKNOWN = "Unknown"`. -/
def PenguinModAPIError.UNKNOWN : JSVal := .str (jstr "Unknown")

/-- Static `PenguinModAPIError.UNKNOWN_CODE = 0`. -/
def PenguinModAPIError.UNKNOWN_CODE : JSVal := .num 0 0

/-- `PenguinModAPIError.ASSERT_FAILED`, read by `assert`: the class declares
no such static, so the JS property access yields `undefined` — a fixed
sentinel distinct from `UNKNOWN_CODE` and from every real status. -/
def PenguinModAPIError.ASSERT_FAILED : JSVal := .undefined

/-- The `PenguinModAPIError` constructor, with the source's parameter order
`(message, detail, httpCode, data, parsingError, url, request, response,
error)`. -/
def mkPMError (message : JSVal) (detail : RVal) (httpCode : JSVal) (data : RVal)
    (parsingError : Bool) (url : JStr) (request : Option ReqOptions)
    (response : Option FResponse) (error : RVal) : PenguinModAPIError :=
  { message := message, detail := jsToString detail, httpCode := httpCode,
    data := data, parsing := parsingError, url := url, request := request,
    response := response, cause := error }

/-- The `RequestType` table of `src/misc/utils.js` (plain strings in the
source; an unrecognized string behaves like `Text`). -/
def RequestType.None : JStr := jstr "none"

def RequestType.Text : JStr := jstr "text"

def RequestType.JSON : JStr := jstr "json"

def RequestType.ArrayBuffer : JStr := jstr "arrbuff"

/-- The caller-supplied mutation hook `apiClass.injectOptions(options, url)`
(overridable on `PenguinModAPI`; the base implementation returns its input). -/
abbrev ApiHook := Option ReqOptions → JStr → Option ReqOptions

def toolingHeaderName : JStr := jstr "PenguinMod-Tooling"

def toolingHeaderValue : JStr := jstr "PenguinMod-ApiModule"

/-- Lines 34–36 of `doBasicRequest`: default missing options/headers and set
the fixed client-identification header. -/
def addTooling (o : ReqOptions) : ReqOptions :=
  { o with headers := some (setKeyG (o.headers.getD []) toolingHeaderName toolingHeaderValue) }

/-- Lines 33–36 of `doBasicRequest` (shared verbatim by `doFormDataRequest`):
run the mutation hook, replace a falsy result by `{}`, then attach the
client-identification header. -/
def prepareOptions (apiClass : ApiHook) (options : Option ReqOptions) (url : JStr) : ReqOptions :=
  addTooling ((apiClass options url).getD { method := none, headers := none })

/-- The single transport event `doBasicRequest` consumes: either the `fetch`
call rejects, or it yields a response. -/
inductive FetchOutcome : Type where
  | reject : JSErr → FetchOutcome
  | resp : FResponse → FetchOutcome

/-- A value `doBasicRequest` can resolve with: the raw response handle
(`RequestType.None`), a text or parsed-JSON value, or a buffer. -/
inductive ResolvedVal : Type where
  | respHandle : FResponse → ResolvedVal
  | val : JSVal → ResolvedVal
  | buffer : List Nat → ResolvedVal

/-- The settled state of the promise returned by a request executor. -/
inductive ReqResult : Type where
  | resolved : ResolvedVal → ReqResult
  | rejected : PenguinModAPIError → ReqResult

/-- The body of the promise executor of `doBasicRequest` (lines 38–85 of
`src/misc/utils.js`), as a pure function of the single transport outcome.
In the source's 2xx JSON branch a parse failure calls `reject` and control
then falls through to `resolve(text)`; since a settled promise ignores the
later `resolve`, the net behavior is the rejection modelled here. -/
def handleFetchOutcome (url : JStr) (options : ReqOptions) (requestType : JStr)
    (outcome : FetchOutcome) : ReqResult :=
  match outcome with
  | .reject err =>
    .rejected (mkPMError (.str (jstr "FetchFailed")) (.err err)
      PenguinModAPIError.UNKNOWN_CODE (.jsv .null) false url (some options) none (.err err))
  | .resp response =>
    if response.ok then
      if requestType = RequestType.None then .resolved (.respHandle response)
      else if requestType = RequestType.ArrayBuffer then
        match response.bufResult with
        | .ok arrBuff => .resolved (.buffer arrBuff)
        | .error err =>
          .rejected (mkPMError (.str (jstr "ParseArrayBufferFailed")) (.err err)
            (.num response.status 0) (.jsv .null) true url (some options) (some response) (.err err))
      else
        match response.textResult with
        | .ok text =>
          if requestType = RequestType.JSON then
            match parseJSON text with
            | .ok v => .resolved (.val v)
            | .error err =>
              .rejected (mkPMError (.str (jstr "ParseJSONFailed")) (.err err)
                (.num response.status 0) (.jsv (.str text)) true url (some options)
                (some response) (.err err))
          else .resolved (.val (.str text))
        | .error err =>
          .rejected (mkPMError (.str (jstr "ParseTextFailed")) (.err err)
            (.num response.status 0) (.jsv .null) true url (some options) (some response) (.err err))
    else
      match response.textResult with
      | .ok text =>
        let jsonResp := safeParseJSON text false
        let errorMsg : JSVal :=
          if truthy jsonResp && truthy (getField jsonResp (jstr "error")) then
            getField jsonResp (jstr "error")
          else if text.isEmpty then PenguinModAPIError.UNKNOWN else .str text
        .rejected (mkPMError errorMsg (.jsv (.str text)) (.num response.status 0)
          (.jsv jsonResp) false url (some options) (some response) (.jsv .null))
      | .error err =>
        .rejected (mkPMError (.str (jstr "ParseTextFailed")) (.err err)
          (.num response.status 0) (.jsv .null) true url (some options) (some response) (.err err))

/-- `doBasicRequest(url, options, apiClass, requestType)` from
`src/misc/utils.js`.  `apiClass` is its `injectOptions` hook (the source
throws up front when `apiClass` is missing; here it is always supplied), and
`transport` is the behavior of the host `fetch`, a function of the options
actually sent — the executor consumes exactly one transport outcome, so no
retry can occur. -/
def doBasicRequest (url : JStr) (options : Option ReqOptions) (apiClass : ApiHook)
    (requestType : JStr) (transport : ReqOptions → FetchOutcome) : ReqResult :=
  let sent := prepareOptions apiClass options url
  handleFetchOutcome url sent requestType (transport sent)

/-- The single axios event `doFormDataRequest` consumes. -/
inductive AxOutcome : Type where
  | success : AxResponse → AxOutcome
  | failure : AxError → AxOutcome

/-- The argument object of the `axios({...})` call in `doFormDataRequest`. -/
structure AxiosConfig where
  url : JStr
  method : JStr
  data : Option Nat
  headers : List (JStr × JStr)
  responseType : Option JStr

/-- Embed an axios `data` payload into the runtime-value universe. -/
def axDataToRVal : AxData → RVal
  | .jsv v => .jsv v
  | .buf b => .buf b

/-- JS truthiness of an axios `data` payload (a buffer is an object, truthy). -/
def axDataTruthy : AxData → Bool
  | .jsv v => truthy v
  | .buf _ => true

/-- JS property read on an axios `data` payload. -/
def axDataGetField (d : AxData) (k : JStr) : JSVal :=
  match d with
  | .jsv v => getField v k
  | .buf _ => .undefined

/-- `doFormDataRequest(url, options, formData, apiClass, requestType)` from
the axios-based utils module (`src/unnamed/part_003`).  `formData` is the
opaque FormData argument, and `transport` is the behavior of `axios`, a
function of the config actually sent.  The two `PenguinModAPIError`s thrown
inside the `try` block are rethrown unchanged by the `catch` (its
`instanceof` guard), so they are produced directly here. -/
def doFormDataRequest (url : JStr) (options : Option ReqOptions) (formData : Option Nat)
    (apiClass : ApiHook) (requestType : JStr) (transport : AxiosConfig → AxOutcome) : ReqResult :=
  let sent := prepareOptions apiClass options url
  let axiosResponseType : Option JStr :=
    if requestType = RequestType.Text then some (jstr "text")
    else if requestType = RequestType.ArrayBuffer then some (jstr "arraybuffer")
    else if requestType = RequestType.JSON then some (jstr "json")
    else none
  let methodStr : JStr :=
    match sent.method with
    | some m => if m.isEmpty then jstr "GET" else m
    | none => jstr "GET"
  match transport { url := url, method := methodStr, data := formData,
                    headers := sent.headers.getD [], responseType := axiosResponseType } with
  | .success response =>
    let responseData := response.data
    let jsonResp : AxData :=
      match responseData with
      | .jsv (.str s) => .jsv (safeParseJSON s false)
      | d => d
    let hasError : Bool :=
      match jsonResp with
      | .jsv v => truthy v && truthy (getField v (jstr "error"))
      | .buf _ => false
    if hasError then
      .rejected (mkPMError
        (match jsonResp with
          | .jsv v => getField v (jstr "error")
          | .buf _ => .undefined)
        (axDataToRVal responseData) (.num response.status 0) (axDataToRVal responseData)
        false url (some sent) none (.jsv .undefined))
    else if (match responseData with | .buf _ => true | .jsv _ => false) &&
        !(200 ≤ response.status && response.status < 400) then
      .rejected (mkPMError (.str (jstr "FormDataRequestArrayBufferFailed"))
        (.jsv (.str (jstr "FormDataRequestArrayBufferFailed"))) (.num response.status 0)
        (axDataToRVal responseData) true url (some sent) none (.jsv .undefined))
    else
      .resolved (match responseData with | .jsv v => .val v | .buf b => .buffer b)
  | .failure err =>
    if err.isCancel then
      .rejected (mkPMError (.str (jstr "FormDataRequestAborted"))
        (.jsv (.str (jstr "FormDataRequestAborted"))) PenguinModAPIError.UNKNOWN_CODE
        (.jsv .null) false url (some sent) none (.axErr err))
    else
      let errorMessage : JSVal :=
        match err.response with
        | none => .str (jstr "FormDataRequestFailed")
        | some r =>
          if axDataTruthy r.data then
            let e := axDataGetField r.data (jstr "error")
            if truthy e then e else .str (jstr "FormDataRequestFailed")
          else .str (jstr "FormDataRequestFailed")
      let status : JSVal :=
        match err.response with
        | some r => .num r.status 0
        | none => PenguinModAPIError.UNKNOWN_CODE
      .rejected (mkPMError (.str (jstr "FormDataRequestFailed")) (.jsv errorMessage) status
        (match err.response with | some r => .axResp r | none => .jsv .undefined)
        false url (some sent) none (.axErr err))

/-- `assert(val, url, message, detail)` from the axios-based utils module:
throw a `PenguinModAPIError` built locally (no transport is involved in its
type) when `val` is falsy, return otherwise.  The source defaults `message`
to `"AssertFailed"` and `detail` to `"Assert failed."`; both are taken
explicitly here. -/
def assert (val : JSVal) (url : JStr) (message : JSVal) (detail : RVal) :
    Except PenguinModAPIError Unit :=
  if truthy val then .ok ()
  else .error (mkPMError message detail PenguinModAPIError.ASSERT_FAILED (.jsv .null)
    false url none none (.jsv .null))

/-- No word produced by `splitAux` contains a space. -/
theorem splitAux_no_space (s : JStr) :
    ' ' ∉ (splitAux s).1 ∧ ∀ w ∈ (splitAux s).2, ' ' ∉ w := by
  induction s with
  | nil => simp [splitAux]
  | cons c rest ih =>
    by_cases hc : c = ' '
    · refine ⟨by simp [splitAux, hc], ?_⟩
      intro w hw
      simp only [splitAux, if_pos hc, List.mem_cons] at hw
      rcases hw with h | h
      · exact h ▸ ih.1
      · exact ih.2 w h
    · refine ⟨?_, by simpa [splitAux, hc] using ih.2⟩
      simp only [splitAux, if_neg hc, List.mem_cons]
      rintro (h | h)
      · exact hc h.symm
      · exact ih.1 h

/-- No word produced by `splitOnSpace` contains a space. -/
theorem mem_splitOnSpace_no_space {s w : JStr} (h : w ∈ splitOnSpace s) : ' ' ∉ w := by
  rw [splitOnSpace] at h
  rcases List.mem_cons.mp h with h | h
  · exact h ▸ (splitAux_no_space s).1
  · exact (splitAux_no_space s).2 w h

/-- Splitting a space-free word leaves it whole. -/
theorem splitAux_of_no_space {w : JStr} (h : ' ' ∉ w) : splitAux w = (w, []) := by
  induction w with
  | nil => rfl
  | cons c rest ih =>
    have hc : ¬c = ' ' := fun e => h (by simp [e])
    have hr : ' ' ∉ rest := fun e => h (List.mem_cons_of_mem _ e)
    simp [splitAux, hc, ih hr]

/-- `splitAux` consumes a space-free word up to the first separating space. -/
theorem splitAux_append_space {w : JStr} (r : JStr) (h : ' ' ∉ w) :
    splitAux (w ++ ' ' :: r) = (w, splitOnSpace r) := by
  induction w with
  | nil => rfl
  | cons c rest ih =>
    have hc : ¬c = ' ' := fun e => h (by simp [e])
    have hr : ' ' ∉ rest := fun e => h (List.mem_cons_of_mem _ e)
    simp [splitAux, hc, ih hr]

/-- `split(" ")` undoes `join(" ")` on a non-empty list of space-free words. -/
theorem splitOnSpace_joinSpace :
    ∀ {ws : List JStr}, ws ≠ [] → (∀ w ∈ ws, ' ' ∉ w) →
      splitOnSpace (joinSpace ws) = ws
  | [], h, _ => absurd rfl h
  | [w], _, hw => by
    simp [joinSpace, splitOnSpace, splitAux_of_no_space (hw w (by simp))]
  | w :: w2 :: rest, _, hw => by
    have h1 : ' ' ∉ w := hw w (by simp)
    have ih : splitOnSpace (joinSpace (w2 :: rest)) = w2 :: rest :=
      splitOnSpace_joinSpace (by simp) (fun x hx => hw x (List.mem_cons_of_mem _ hx))
    have hj : joinSpace (w :: w2 :: rest) = w ++ ' ' :: joinSpace (w2 :: rest) := rfl
    rw [splitOnSpace, hj, splitAux_append_space _ h1, ih]

/-- The modifier part produced by `splitFirstColon` never contains a colon. -/
theorem splitFirstColon_fst_no_colon (w : JStr) : ':' ∉ (splitFirstColon w).1 := by
  induction w with
  | nil => simp [splitFirstColon]
  | cons c rest ih =>
    by_cases hc : c = ':'
    · simp [splitFirstColon, hc]
    · simp only [splitFirstColon, if_neg hc, List.mem_cons]
      rintro (h | h)
      · exact hc h.symm
      · exact ih h

/-- Splitting at the first colon of `k ++ ":" ++ v` recovers `(k, v)` when `k`
is colon-free. -/
theorem splitFirstColon_append {k : JStr} (v : JStr) (h : ':' ∉ k) :
    splitFirstColon (k ++ ':' :: v) = (k, v) := by
  induction k with
  | nil => simp [splitFirstColon]
  | cons c rest ih =>
    have hc : ¬c = ':' := fun e => h (by simp [e])
    have hr : ':' ∉ rest := fun e => h (List.mem_cons_of_mem _ e)
    simp [splitFirstColon, hc, ih hr]

/-- Both parts of `splitFirstColon` draw their characters from the word. -/
theorem mem_splitFirstColon (w : JStr) :
    (∀ c ∈ (splitFirstColon w).1, c ∈ w) ∧ ∀ c ∈ (splitFirstColon w).2, c ∈ w := by
  induction w with
  | nil => simp [splitFirstColon]
  | cons x rest ih =>
    by_cases hx : x = ':'
    · constructor
      · simp [splitFirstColon, hx]
      · intro c hc
        simp only [splitFirstColon, if_pos hx] at hc
        exact List.mem_cons_of_mem _ hc
    · constructor
      · intro c hc
        simp only [splitFirstColon, if_neg hx, List.mem_cons] at hc
        rcases hc with h | h
        · simp [h]
        · exact List.mem_cons_of_mem _ (ih.1 c h)
      · intro c hc
        simp only [splitFirstColon, if_neg hx] at hc
        exact List.mem_cons_of_mem _ (ih.2 c hc)

/-- A word of the shape `k ++ ":" ++ v` contains a colon. -/
theorem hasColon_append_colon (k v : JStr) : hasColon (k ++ ':' :: v) = true := by
  induction k with
  | nil => simp [hasColon]
  | cons c rest ih => simp [hasColon, ih]

/-- Looking up the key just assigned yields the assigned value. -/
theorem lookup_setKeyG_self {α : Type} (m : List (JStr × α)) (k : JStr) (v : α) :
    lookupG (setKeyG m k v) k = some v := by
  induction m with
  | nil => simp [setKeyG, lookupG]
  | cons p rest ih =>
    by_cases hp : p.1 = k
    · simp [setKeyG, hp, lookupG]
    · simp [setKeyG, hp, lookupG, ih]

/-- Assignment leaves every other key unchanged. -/
theorem lookup_setKeyG_ne {α : Type} (m : List (JStr × α)) {k k2 : JStr} (v : α)
    (h : k2 ≠ k) : lookupG (setKeyG m k v) k2 = lookupG m k2 := by
  have hk : ¬k = k2 := fun e => h e.symm
  induction m with
  | nil => simp [setKeyG, lookupG, hk]
  | cons p rest ih =>
    by_cases hp : p.1 = k
    · simp [setKeyG, lookupG, hp, hk]
    · by_cases hp2 : p.1 = k2
      · simp [setKeyG, lookupG, hp, hp2, h]
      · simp [setKeyG, lookupG, hp, hp2, ih]

/-- Assigning a fresh key appends the pair. -/
theorem setKeyG_of_not_mem_keys {α : Type} {m : List (JStr × α)} {k : JStr} (v : α)
    (h : k ∉ m.map Prod.fst) : setKeyG m k v = m ++ [(k, v)] := by
  induction m with
  | nil => rfl
  | cons p rest ih =>
    have hp : ¬p.1 = k := fun e => h (by rw [List.map_cons, ← e]; exact List.mem_cons_self _ _)
    have hr : k ∉ rest.map Prod.fst :=
      fun e2 => h (by rw [List.map_cons]; exact List.mem_cons_of_mem _ e2)
    simp [setKeyG, hp, ih hr]

/-- Keys after an assignment: the old keys plus possibly the new one. -/
theorem mem_keys_setKeyG {α : Type} {m : List (JStr × α)} {k k2 : JStr} {v : α}
    (h : k2 ∈ (setKeyG m k v).map Prod.fst) : k2 ∈ m.map Prod.fst ∨ k2 = k := by
  induction m with
  | nil => simpa [setKeyG] using h
  | cons p rest ih =>
    by_cases hp : p.1 = k
    · simp only [setKeyG, if_pos hp, List.map_cons, List.mem_cons] at h
      rcases h with h | h
      · exact Or.inr h
      · exact Or.inl (by rw [List.map_cons]; exact List.mem_cons_of_mem _ h)
    · simp only [setKeyG, if_neg hp, List.map_cons, List.mem_cons] at h
      rcases h with h | h
      · exact Or.inl (by rw [List.map_cons, h]; exact List.mem_cons_self _ _)
      · rcases ih h with h2 | h2
        · exact Or.inl (by rw [List.map_cons]; exact List.mem_cons_of_mem _ h2)
        · exact Or.inr h2

/-- Assignment preserves key uniqueness. -/
theorem nodup_keys_setKeyG {α : Type} {m : List (JStr × α)} (k : JStr) (v : α)
    (h : (m.map Prod.fst).Nodup) : ((setKeyG m k v).map Prod.fst).Nodup := by
  induction m with
  | nil => simp [setKeyG]
  | cons p rest ih =>
    rw [List.map_cons, List.nodup_cons] at h
    by_cases hp : p.1 = k
    · simp only [setKeyG, if_pos hp, List.map_cons]
      exact List.nodup_cons.mpr ⟨hp ▸ h.1, h.2⟩
    · simp only [setKeyG, if_neg hp, List.map_cons]
      refine List.nodup_cons.mpr ⟨?_, ih h.2⟩
      intro hmem
      rcases mem_keys_setKeyG hmem with h2 | h2
      · exact h.1 h2
      · exact hp h2

/-- An entry of `setKeyG m k v` is an old entry or the assigned pair. -/
theorem mem_setKeyG {α : Type} {m : List (JStr × α)} {k : JStr} {v : α}
    {p : JStr × α} (h : p ∈ setKeyG m k v) : p ∈ m ∨ p = (k, v) := by
  induction m with
  | nil => exact Or.inr (by simpa [setKeyG] using h)
  | cons q rest ih =>
    by_cases hq : q.1 = k
    · simp only [setKeyG, if_pos hq, List.mem_cons] at h
      rcases h with h | h
      · exact Or.inr h
      · exact Or.inl (List.mem_cons_of_mem _ h)
    · simp only [setKeyG, if_neg hq, List.mem_cons] at h
      rcases h with h | h
      · exact Or.inl (by rw [h]; exact List.mem_cons_self _ _)
      · rcases ih h with h2 | h2
        · exact Or.inl (List.mem_cons_of_mem _ h2)
        · exact Or.inr h2

/-- Filtering a key away ignores an assignment to that key. -/
theorem filter_ne_setKeyG_self {α : Type} (m : List (JStr × α)) (k : JStr) (v : α) :
    (setKeyG m k v).filter (fun p => !decide (p.1 = k)) =
      m.filter (fun p => !decide (p.1 = k)) := by
  induction m with
  | nil => simp [setKeyG]
  | cons q rest ih =>
    by_cases hq : q.1 = k
    · simp [setKeyG, hq, List.filter_cons]
    · simp [setKeyG, hq, List.filter_cons, ih]

/-- Filtering a key away does not change the lookup of other keys. -/
theorem lookup_filter_ne {α : Type} (m : List (JStr × α)) {k q : JStr}
    (h : k ≠ q) : lookupG (m.filter (fun p => !decide (p.1 = q))) k = lookupG m k := by
  have hqk : ¬q = k := fun e => h e.symm
  induction m with
  | nil => simp
  | cons p rest ih =>
    by_cases hp : p.1 = q
    · simp [List.filter_cons, hp, lookupG, hqk, ih]
    · by_cases hk : p.1 = k
      · simp [List.filter_cons, hp, lookupG, hk, h]
      · simp [List.filter_cons, hp, lookupG, hk, ih]

/-- A token is admitted as a modifier when it contains a colon and its
modifier part passes the filter — the guard of the loop of `extractQuery`. -/
def admitTok (limitTags : Option (List JStr)) (whitelist : Bool) (w : JStr) : Bool :=
  hasColon w && isAllowed limitTags whitelist (splitFirstColon w).1

/-- The accumulator step over an admitted token. -/
def stepTok (m : SearchQuery) (w : JStr) : SearchQuery :=
  setKeyG m (splitFirstColon w).1 (castValue (splitFirstColon w).2)

/-- Closed form of the token loop: the admitted tokens are folded into the
modifier object, the rejected ones are appended to the free text in order. -/
theorem extractGo_eq (lt : Option (List JStr)) (wl : Bool) (ws : List JStr) :
    ∀ (rq : SearchQuery) (cq : List JStr),
      extractGo lt wl ws rq cq =
        ((ws.filter (admitTok lt wl)).foldl stepTok rq,
          cq ++ ws.filter (fun w => !admitTok lt wl w)) := by
  induction ws with
  | nil => intro rq cq; simp [extractGo]
  | cons w ws ih =>
    intro rq cq
    by_cases hc : hasColon w
    · by_cases ha : isAllowed lt wl (splitFirstColon w).1
      · have hat : admitTok lt wl w = true := by simp [admitTok, hc, ha]
        simp [extractGo, hc, ha, hat, List.filter_cons, ih, stepTok]
      · have hat : admitTok lt wl w = false := by simp [admitTok, hc, ha]
        simp [extractGo, hc, ha, hat, List.filter_cons, ih]
    · have hat : admitTok lt wl w = false := by simp [admitTok, hc]
      simp [extractGo, hc, hat, List.filter_cons, ih]

/-- An entry of the folded modifier object comes from the accumulator or from
one of the folded tokens. -/
theorem mem_foldl_stepTok :
    ∀ (l : List JStr) (acc : SearchQuery) (p : JStr × QVal), p ∈ l.foldl stepTok acc →
      p ∈ acc ∨ ∃ w ∈ l, p = ((splitFirstColon w).1, castValue (splitFirstColon w).2)
  | [], acc, p, h => Or.inl h
  | w :: l, acc, p, h => by
    rcases mem_foldl_stepTok l (stepTok acc w) p h with h2 | h2
    · rcases mem_setKeyG h2 with h3 | h3
      · exact Or.inl h3
      · exact Or.inr ⟨w, List.mem_cons_self _ _, h3⟩
    · rcases h2 with ⟨w2, hw2, he⟩
      exact Or.inr ⟨w2, List.mem_cons_of_mem _ hw2, he⟩

/-- The fold preserves key uniqueness. -/
theorem nodup_keys_foldl_stepTok :
    ∀ (l : List JStr) (acc : SearchQuery), ((acc.map Prod.fst).Nodup) →
      (((l.foldl stepTok acc).map Prod.fst).Nodup)
  | [], _, h => h
  | w :: l, acc, h =>
    nodup_keys_foldl_stepTok l (stepTok acc w) (nodup_keys_setKeyG _ _ h)

/-- Folding entry pairs with fresh, pairwise-distinct keys appends them. -/
theorem foldl_setKeyG_append :
    ∀ (l : SearchQuery) (acc : SearchQuery), ((l.map Prod.fst).Nodup) →
      (∀ k ∈ l.map Prod.fst, k ∉ acc.map Prod.fst) →
      l.foldl (fun m p => setKeyG m p.1 p.2) acc = acc ++ l
  | [], acc, _, _ => by simp
  | p :: l, acc, hnd, hdis => by
    have hfresh : p.1 ∉ acc.map Prod.fst :=
      hdis p.1 (by rw [List.map_cons]; exact List.mem_cons_self _ _)
    have hstep : setKeyG acc p.1 p.2 = acc ++ [p] := setKeyG_of_not_mem_keys p.2 hfresh
    rw [List.map_cons, List.nodup_cons] at hnd
    have hdis2 : ∀ k ∈ l.map Prod.fst, k ∉ (acc ++ [p]).map Prod.fst := by
      intro k hk
      rw [List.map_append]
      intro hmem
      rcases List.mem_append.mp hmem with h2 | h2
      · exact hdis k (by rw [List.map_cons]; exact List.mem_cons_of_mem _ hk) h2
      · simp only [List.map_cons, List.map_nil, List.mem_singleton] at h2
        exact hnd.1 (h2 ▸ hk)
    calc (p :: l).foldl (fun m q => setKeyG m q.1 q.2) acc
        = l.foldl (fun m q => setKeyG m q.1 q.2) (acc ++ [p]) := by rw [List.foldl_cons, hstep]
      _ = (acc ++ [p]) ++ l := foldl_setKeyG_append l (acc ++ [p]) hnd.2 hdis2
      _ = acc ++ (p :: l) := by simp

/-- Coerced values are fixed points of render-then-coerce. -/
theorem castValue_renderVal_castValue (raw : JStr) :
    castValue (renderVal (castValue raw)) = castValue raw := by
  by_cases h1 : raw = jstr "true"
  · subst h1; decide
  · by_cases h2 : raw = jstr "false"
    · subst h2; decide
    · by_cases h3 : jsTrim raw = []
      · have hcv : castValue raw = .bool true := by simp [castValue, h1, h2, h3]
        rw [hcv]; decide
      · have hcv : castValue raw = .str raw := by simp [castValue, h1, h2, h3]
        rw [hcv]; exact hcv

/-- A rendered coerced value is `"true"`, `"false"`, or the raw value. -/
theorem renderVal_castValue_cases (raw : JStr) :
    renderVal (castValue raw) = jstr "true" ∨ renderVal (castValue raw) = jstr "false" ∨
      renderVal (castValue raw) = raw := by
  by_cases h1 : raw = jstr "true"
  · subst h1; left; decide
  · by_cases h2 : raw = jstr "false"
    · subst h2; right; left; decide
    · by_cases h3 : jsTrim raw = []
      · have hcv : castValue raw = .bool true := by simp [castValue, h1, h2, h3]
        left; rw [hcv]; rfl
      · have hcv : castValue raw = .str raw := by simp [castValue, h1, h2, h3]
        right; right; rw [hcv]; rfl

/-- A token rebuilt from a colon-free, admitted modifier key is admitted. -/
theorem admitTok_token (lt : Option (List JStr)) (wl : Bool) {k : JStr} (v : JStr)
    (hk : ':' ∉ k) (ha : isAllowed lt wl k = true) :
    admitTok lt wl (k ++ ':' :: v) = true := by
  simp [admitTok, hasColon_append_colon, splitFirstColon_append _ hk, ha]

/-- The modifier object `resultingQuery` built by `extractQuery` over `s`. -/
def modObject (lt : Option (List JStr)) (wl : Bool) (s : JStr) : SearchQuery :=
  ((splitOnSpace s).filter (admitTok lt wl)).foldl stepTok []

/-- The free-text tokens `cleanQuery` collected by `extractQuery` over `s`. -/
def freeToks (lt : Option (List JStr)) (wl : Bool) (s : JStr) : List JStr :=
  (splitOnSpace s).filter (fun w => !admitTok lt wl w)

/-- The joined free text of `extractQuery` over `s`. -/
def freeText (lt : Option (List JStr)) (wl : Bool) (s : JStr) : JStr :=
  joinSpace (freeToks lt wl s)

/-- `extractQuery`, decomposed: the modifier object with the free text
assigned under `query`. -/
theorem extractQuery_decomp (s : JStr) (lt : Option (List JStr)) (wl : Bool) :
    PenguinModDiscovery.extractQuery s lt wl =
      setKeyG (modObject lt wl s) (jstr "query") (.str (freeText lt wl s)) := by
  unfold PenguinModDiscovery.extractQuery modObject freeText freeToks
  rw [extractGo_eq]
  simp

/-- Every entry of the modifier object has a colon-free, space-free, admitted
key and a value that survives render-then-coerce with a space-free rendering. -/
theorem modObject_entry_props (lt : Option (List JStr)) (wl : Bool) (s : JStr) :
    ∀ p ∈ modObject lt wl s, ':' ∉ p.1 ∧ ' ' ∉ p.1 ∧ isAllowed lt wl p.1 = true ∧
      castValue (renderVal p.2) = p.2 ∧ ' ' ∉ renderVal p.2 := by
  intro p hp
  rcases mem_foldl_stepTok _ [] p hp with h | ⟨w, hw, he⟩
  · exact absurd h (List.not_mem_nil p)
  · have hmem := List.mem_filter.mp hw
    have hwsp : ' ' ∉ w := mem_splitOnSpace_no_space hmem.1
    have hadm : admitTok lt wl w = true := hmem.2
    have hall : isAllowed lt wl (splitFirstColon w).1 = true := by
      have h2 := hadm
      simp only [admitTok, Bool.and_eq_true] at h2
      exact h2.2
    have hvsp : ' ' ∉ (splitFirstColon w).2 :=
      fun hc => hwsp ((mem_splitFirstColon w).2 ' ' hc)
    have hksp : ' ' ∉ (splitFirstColon w).1 :=
      fun hc => hwsp ((mem_splitFirstColon w).1 ' ' hc)
    refine he ▸ ⟨splitFirstColon_fst_no_colon w, hksp, hall,
      castValue_renderVal_castValue _, ?_⟩
    rcases renderVal_castValue_cases (splitFirstColon w).2 with h3 | h3 | h3 <;> rw [h3]
    · decide
    · decide
    · exact hvsp

/-- The modifier object has unique keys. -/
theorem modObject_keys_nodup (lt : Option (List JStr)) (wl : Bool) (s : JStr) :
    (((modObject lt wl s).map Prod.fst).Nodup) :=
  nodup_keys_foldl_stepTok _ [] (by simp)

/-- The modifier object without its `query` key, as `createQuery` reads it. -/
def modsFiltered (lt : Option (List JStr)) (wl : Bool) (s : JStr) : SearchQuery :=
  (modObject lt wl s).filter (fun p => !decide (p.1 = jstr "query"))

/-- The `modifier:value` tokens `createQuery` emits for `extractQuery s`. -/
def modToks (lt : Option (List JStr)) (wl : Bool) (s : JStr) : List JStr :=
  (modsFiltered lt wl s).map (fun p => p.1 ++ ':' :: renderVal p.2)

/-- Folding rebuilt `key:value` tokens is folding the original entry pairs,
when keys are colon-free and values survive render-then-coerce. -/
theorem foldl_map_token :
    ∀ (l : SearchQuery) (acc : SearchQuery),
      (∀ p ∈ l, ':' ∉ p.1 ∧ castValue (renderVal p.2) = p.2) →
      (l.map (fun p => p.1 ++ ':' :: renderVal p.2)).foldl stepTok acc =
        l.foldl (fun m p => setKeyG m p.1 p.2) acc
  | [], _, _ => rfl
  | p :: l, acc, hgood => by
    have hp := hgood p (List.mem_cons_self _ _)
    have hsplit : splitFirstColon (p.1 ++ ':' :: renderVal p.2) = (p.1, renderVal p.2) :=
      splitFirstColon_append _ hp.1
    rw [List.map_cons, List.foldl_cons, List.foldl_cons]
    rw [show stepTok acc (p.1 ++ ':' :: renderVal p.2) = setKeyG acc p.1 p.2 by
      rw [stepTok, hsplit]; exact congrArg _ hp.2]
    exact foldl_map_token l _ (fun q hq => hgood q (List.mem_cons_of_mem _ hq))

/-- The `query` lookup on an extraction result is always the joined free text. -/
theorem lookup_extractQuery_query (s : JStr) (lt : Option (List JStr)) (wl : Bool) :
    lookupG (PenguinModDiscovery.extractQuery s lt wl) (jstr "query") =
      some (.str (freeText lt wl s)) := by
  rw [extractQuery_decomp]
  exact lookup_setKeyG_self _ _ _

/-- `createQuery` on an extraction result: the `modifier:value` tokens, then
the free-text words unless the free text is empty, joined by spaces. -/
theorem createQuery_extractQuery (s : JStr) (lt : Option (List JStr)) (wl : Bool) :
    PenguinModDiscovery.createQuery (PenguinModDiscovery.extractQuery s lt wl) =
      some (joinSpace (if freeText lt wl s = [] then modToks lt wl s
        else modToks lt wl s ++ splitOnSpace (freeText lt wl s))) := by
  unfold PenguinModDiscovery.createQuery
  rw [lookup_extractQuery_query, extractQuery_decomp, filter_ne_setKeyG_self]
  rfl

/-- Every entry of the filtered modifier object inherits the entry
properties of the modifier object. -/
theorem modsFiltered_entry_props (lt : Option (List JStr)) (wl : Bool) (s : JStr) :
    ∀ p ∈ modsFiltered lt wl s, ':' ∉ p.1 ∧ ' ' ∉ p.1 ∧ isAllowed lt wl p.1 = true ∧
      castValue (renderVal p.2) = p.2 ∧ ' ' ∉ renderVal p.2 :=
  fun p hp => modObject_entry_props lt wl s p (List.mem_filter.mp hp).1

/-- Re-extracting the string `createQuery` built from an extraction result
recovers the filtered modifier object with the original free text. -/
theorem extractQuery_roundTrip_core (s : JStr) (lt : Option (List JStr)) (wl : Bool) :
    PenguinModDiscovery.extractQuery
        (joinSpace (if freeText lt wl s = [] then modToks lt wl s
          else modToks lt wl s ++ splitOnSpace (freeText lt wl s))) lt wl =
      setKeyG (modsFiltered lt wl s) (jstr "query") (.str (freeText lt wl s)) := by
  have hprops := modsFiltered_entry_props lt wl s
  have hmtsp : ∀ w ∈ modToks lt wl s, ' ' ∉ w := by
    intro w hw
    rcases List.mem_map.mp hw with ⟨p, hp, he⟩
    have h := hprops p hp
    intro hsp
    rw [← he] at hsp
    rcases List.mem_append.mp hsp with hs1 | hs2
    · exact h.2.1 hs1
    · rcases List.mem_cons.mp hs2 with h3 | h3
      · exact absurd h3 (by decide)
      · exact h.2.2.2.2 h3
  have hmtadm : ∀ w ∈ modToks lt wl s, admitTok lt wl w = true := by
    intro w hw
    rcases List.mem_map.mp hw with ⟨p, hp, he⟩
    have h := hprops p hp
    rw [← he]
    exact admitTok_token lt wl _ h.1 h.2.2.1
  have hnd : ((modsFiltered lt wl s).map Prod.fst).Nodup := by
    have hsub : List.Sublist ((modsFiltered lt wl s).map Prod.fst)
        ((modObject lt wl s).map Prod.fst) :=
      (List.filter_sublist _).map _
    exact (modObject_keys_nodup lt wl s).sublist hsub
  have hfold : (modToks lt wl s).foldl stepTok [] = modsFiltered lt wl s := by
    rw [modToks, foldl_map_token _ _ (fun p hp => ⟨(hprops p hp).1, (hprops p hp).2.2.2.1⟩)]
    rw [foldl_setKeyG_append _ [] hnd (fun k _ => List.not_mem_nil k)]
    rfl
  have hcqprops : ∀ w ∈ freeToks lt wl s, ' ' ∉ w ∧ admitTok lt wl w = false := by
    intro w hw
    have h := List.mem_filter.mp hw
    exact ⟨mem_splitOnSpace_no_space h.1, by simpa using h.2⟩
  by_cases hft : freeText lt wl s = []
  · by_cases hmt : modToks lt wl s = []
    · have hmf : modsFiltered lt wl s = [] := by
        have := hmt
        rw [modToks] at this
        exact List.map_eq_nil.mp this
      rw [if_pos hft, hmt, hmf, hft]
      have hadm0 : admitTok lt wl [] = false := by simp [admitTok, hasColon]
      rw [extractQuery_decomp]
      simp [modObject, freeText, freeToks, splitOnSpace, splitAux, hadm0, joinSpace]
    · rw [if_pos hft]
      have hsplit : splitOnSpace (joinSpace (modToks lt wl s)) = modToks lt wl s :=
        splitOnSpace_joinSpace hmt hmtsp
      rw [extractQuery_decomp]
      have h1 : modObject lt wl (joinSpace (modToks lt wl s)) = modsFiltered lt wl s := by
        rw [modObject, hsplit, List.filter_eq_self.mpr hmtadm, hfold]
      have h2 : freeText lt wl (joinSpace (modToks lt wl s)) = [] := by
        rw [freeText, freeToks, hsplit,
          List.filter_eq_nil.mpr (fun w hw => by simp [hmtadm w hw])]
        rfl
      rw [h1, h2, hft]
  · rw [if_neg hft]
    have hcqne : freeToks lt wl s ≠ [] := by
      intro h
      apply hft
      rw [freeText, h]
      rfl
    have hsplitft : splitOnSpace (freeText lt wl s) = freeToks lt wl s := by
      rw [freeText]
      exact splitOnSpace_joinSpace hcqne (fun w hw => (hcqprops w hw).1)
    have happne : modToks lt wl s ++ freeToks lt wl s ≠ [] := by
      intro h
      exact hcqne (List.append_eq_nil.mp h).2
    have hallsp : ∀ w ∈ modToks lt wl s ++ freeToks lt wl s, ' ' ∉ w := by
      intro w hw
      rcases List.mem_append.mp hw with h | h
      · exact hmtsp w h
      · exact (hcqprops w h).1
    have hsplit : splitOnSpace (joinSpace (modToks lt wl s ++ freeToks lt wl s)) =
        modToks lt wl s ++ freeToks lt wl s := splitOnSpace_joinSpace happne hallsp
    rw [hsplitft, extractQuery_decomp]
    have h1 : modObject lt wl (joinSpace (modToks lt wl s ++ freeToks lt wl s)) =
        modsFiltered lt wl s := by
      rw [modObject, hsplit, List.filter_append, List.filter_eq_self.mpr hmtadm,
        List.filter_eq_nil.mpr (fun w hw => by simp [(hcqprops w hw).2]), List.append_nil, hfold]
    have h2 : freeText lt wl (joinSpace (modToks lt wl s ++ freeToks lt wl s)) =
        freeText lt wl s := by
      rw [freeText, freeToks, hsplit, List.filter_append,
        List.filter_eq_nil.mpr (fun w hw => by simp [hmtadm w hw]),
        List.filter_eq_self.mpr (fun w hw => by simp [(hcqprops w hw).2]), List.nil_append]
      rfl
    rw [h1, h2]

/-- C2: for every input string, modifier filter and whitelist flag, re-running
`extractQuery` on the string built by `createQuery` from a previous
`extractQuery` result yields a field-equal `SearchQuery`: every key looks up
to the same value, even though the intermediate string need not equal the
original input. -/
theorem extractQuery_createQuery_roundTrip (s : JStr) (lt : Option (List JStr)) (wl : Bool) :
    ∃ t, PenguinModDiscovery.createQuery (PenguinModDiscovery.extractQuery s lt wl) = some t ∧
      ∀ k, lookupG (PenguinModDiscovery.extractQuery t lt wl) k =
        lookupG (PenguinModDiscovery.extractQuery s lt wl) k := by
  refine ⟨_, createQuery_extractQuery s lt wl, ?_⟩
  intro k
  rw [extractQuery_roundTrip_core]
  by_cases hk : k = jstr "query"
  · rw [hk, lookup_setKeyG_self, extractQuery_decomp, lookup_setKeyG_self]
  · rw [lookup_setKeyG_ne _ _ hk, extractQuery_decomp s, lookup_setKeyG_ne _ _ hk,
      modsFiltered, lookup_filter_ne _ hk]

/-- C10: the `query` field of every `extractQuery` result is the string of
space-joined free-text tokens — in particular, an admitted `query:<value>`
modifier is overwritten by the free-text accumulator and discarded, as the
concrete second conjunct shows for `"query:foo bar"`. -/
theorem extractQuery_query_field_is_free_text (s : JStr) (lt : Option (List JStr)) (wl : Bool) :
    lookupG (PenguinModDiscovery.extractQuery s lt wl) (jstr "query") =
      some (.str (freeText lt wl s)) ∧
    PenguinModDiscovery.extractQuery (jstr "query:foo bar") none false =
      [(jstr "query", .str (jstr "bar"))] :=
  ⟨lookup_extractQuery_query s lt wl, by rfl⟩

/-- Helper for `splitOnWhite`: first word up to the first whitespace
character, and the remaining words. -/
def splitWsAux : JStr → JStr × List JStr
  | [] => ([], [])
  | c :: rest =>
    let r := splitWsAux rest
    if jsIsWhite c then ([], r.1 :: r.2) else (c :: r.1, r.2)

/-- Splitting on every whitespace character, as the claim's "split the text
on whitespace into tokens" reads. -/
def splitOnWhite (s : JStr) : List JStr :=
  (splitWsAux s).1 :: (splitWsAux s).2

/-- The claim's coercion: only the literally empty value becomes `true`
(the source instead coerces any value that trims to empty). -/
def coerceClaimed (value : JStr) : QVal :=
  if value = jstr "true" then .bool true
  else if value = jstr "false" then .bool false
  else if value = [] then .bool true
  else .str value

/-- The accumulator step of the claimed algorithm. -/
def stepTokClaimed (m : SearchQuery) (w : JStr) : SearchQuery :=
  setKeyG m (splitFirstColon w).1 (coerceClaimed (splitFirstColon w).2)

/-- The extraction algorithm exactly as claim C5 words it: split the text on
whitespace, split admitted tokens at the first colon, coerce with the
literal-empty rule, append rejected tokens verbatim to free text joined by
single spaces. -/
def extractQueryClaimed (query : JStr) (lt : Option (List JStr)) (wl : Bool) : SearchQuery :=
  let toks := splitOnWhite query
  setKeyG ((toks.filter (admitTok lt wl)).foldl stepTokClaimed [])
    (jstr "query") (.str (joinSpace (toks.filter (fun w => !admitTok lt wl w))))

/-- C5 counterexample: on `"a\tb"` the claimed whitespace-splitting algorithm
produces `{query: "a b"}`, but the source splits on the space character only
and returns `{query: "a\tb"}` — the tab is not a token separator there. -/
theorem extractQuery_claimed_counterexample :
    extractQueryClaimed (jstr "a\tb") none false ≠
      PenguinModDiscovery.extractQuery (jstr "a\tb") none false := by decide

/-- The extraction algorithm as amended: split on the space character only
(U+0020), and coerce a value whose `trim()` is empty (not only the literally
empty value) to boolean `true`; the rest of the claim is unchanged. -/
def extractQueryAmended (query : JStr) (lt : Option (List JStr)) (wl : Bool) : SearchQuery :=
  let toks := splitOnSpace query
  setKeyG ((toks.filter (admitTok lt wl)).foldl stepTok [])
    (jstr "query") (.str (joinSpace (toks.filter (fun w => !admitTok lt wl w))))

/-- C5 (amended): `extractQuery` computes exactly the amended algorithm —
space-only tokenization, first-colon split, filter admission, trim-aware
coercion, and verbatim free-text fallback joined by single spaces. -/
theorem extractQuery_algorithm_amended (s : JStr) (lt : Option (List JStr)) (wl : Bool) :
    PenguinModDiscovery.extractQuery s lt wl = extractQueryAmended s lt wl := by
  rw [extractQuery_decomp]
  rfl

/-- C6: when the transport itself rejects before any response, the executor
rejects with `FetchFailed`, `httpCode = UNKNOWN_CODE`, `parsing = false`, the
original exception as `cause`, and null `data`.  The executor consumes the
single transport outcome of its one `fetch` call, so no retry occurs (the
embedding has no second outcome to consume). -/
theorem doBasicRequest_transport_failure (url : JStr) (options : Option ReqOptions)
    (apiClass : ApiHook) (requestType : JStr) (err : JSErr) :
    ∃ e, doBasicRequest url options apiClass requestType (fun _ => .reject err) = .rejected e ∧
      e.message = .str (jstr "FetchFailed") ∧
      e.httpCode = PenguinModAPIError.UNKNOWN_CODE ∧
      e.parsing = false ∧
      e.cause = .err err ∧
      e.data = .jsv .null :=
  ⟨_, rfl, rfl, rfl, rfl, rfl, rfl⟩

/-- Truthiness of `jsonResp && jsonResp.error`: the conjunct on the container
is redundant, because a falsy container is never an object and so its field
read is `undefined`, itself falsy. -/
theorem truthy_and_getField (j : JSVal) (k : JStr) :
    (truthy j && truthy (getField j k)) = truthy (getField j k) := by
  cases j <;> simp [truthy, getField]

/-- The `message` claim C1 predicts for a non-2xx body `text`: the parsed
body's (truthy) `error` field when the text parses as JSON carrying one,
otherwise the raw text, otherwise `"Unknown"` when the text is empty. -/
def remoteErrorMessage (text : JStr) : JSVal :=
  match parseJSON text with
  | .ok j =>
    if truthy (getField j (jstr "error")) then getField j (jstr "error")
    else if text = [] then PenguinModAPIError.UNKNOWN else .str text
  | .error _ => if text = [] then PenguinModAPIError.UNKNOWN else .str text

/-- C1: for every non-2xx response whose body text is read successfully, the
executor rejects with message `remoteErrorMessage text`, data the
`safeParseJSON` of the text, the response's status as `httpCode`,
`parsing = false`, and no `cause` (the explicit `null`). -/
theorem doBasicRequest_remote_error (url : JStr) (options : Option ReqOptions)
    (apiClass : ApiHook) (requestType : JStr) (r : FResponse) (text : JStr)
    (hok : r.ok = false) (htext : r.textResult = .ok text) :
    ∃ e, doBasicRequest url options apiClass requestType (fun _ => .resp r) = .rejected e ∧
      e.message = remoteErrorMessage text ∧
      e.data = .jsv (safeParseJSON text false) ∧
      e.httpCode = .num r.status 0 ∧
      e.parsing = false ∧
      e.cause = .jsv .null := by
  have hbranch : doBasicRequest url options apiClass requestType (fun _ => .resp r) =
      .rejected (mkPMError
        (if truthy (safeParseJSON text false) &&
            truthy (getField (safeParseJSON text false) (jstr "error")) then
          getField (safeParseJSON text false) (jstr "error")
        else if text.isEmpty then PenguinModAPIError.UNKNOWN else .str text)
        (.jsv (.str text)) (.num r.status 0) (.jsv (safeParseJSON text false)) false url
        (some (prepareOptions apiClass options url)) (some r) (.jsv .null)) := by
    simp only [doBasicRequest, handleFetchOutcome, hok, Bool.false_eq_true, if_false, htext]
  refine ⟨_, hbranch, ?_, rfl, rfl, rfl, rfl⟩
  show (if truthy (safeParseJSON text false) &&
      truthy (getField (safeParseJSON text false) (jstr "error")) then
    getField (safeParseJSON text false) (jstr "error")
  else if text.isEmpty then PenguinModAPIError.UNKNOWN else .str text) =
    remoteErrorMessage text
  rw [truthy_and_getField]
  cases hp : parseJSON text with
  | ok j =>
    have hs : safeParseJSON text false = j := by rw [safeParseJSON, hp]
    rw [hs]
    simp only [remoteErrorMessage, hp]
    by_cases htr : truthy (getField j (jstr "error")) = true
    · rw [if_pos htr, if_pos htr]
    · rw [if_neg htr, if_neg htr]
      by_cases hte : text = []
      · rw [if_pos hte, if_pos (by rw [hte]; rfl)]
      · have hie : text.isEmpty = false := by
          cases text with
          | nil => exact absurd rfl hte
          | cons c cs => rfl
        rw [hie, if_neg hte]
        rw [if_neg (by simp)]
  | error pe =>
    have hs : safeParseJSON text false = .str text := by rw [safeParseJSON, hp]; rfl
    rw [hs]
    simp only [remoteErrorMessage, hp]
    have hund : getField (.str text) (jstr "error") = .undefined := rfl
    rw [hund]
    rw [if_neg (by simp [truthy])]
    by_cases hte : text = []
    · rw [if_pos hte, if_pos (by rw [hte]; rfl)]
    · have hie : text.isEmpty = false := by
        cases text with
        | nil => exact absurd rfl hte
        | cons c cs => rfl
      rw [hie, if_neg hte, if_neg (by simp)]

/-- A concrete URL for witness instances. -/
def wURL : JStr := jstr "https://projects.penguinmod.example/api/v1/projects"

/-- The identity mutation hook (the base `injectOptions` returns its input). -/
def idHook : ApiHook := fun o _ => o

/-- A 404 response with the JSON error envelope of the spec's example. -/
def r404 : FResponse := ⟨404, .ok (jstr "\x7b\"error\":\"ProjectNotFound\"\x7d"), .ok []⟩

/-- Witness for C1 at the spec's 404 example: the hypotheses hold concretely
and the predicted message evaluates to `"ProjectNotFound"`. -/
theorem doBasicRequest_remote_error_witness :
    (∃ e, doBasicRequest wURL none idHook RequestType.JSON (fun _ => .resp r404) = .rejected e ∧
      e.message = remoteErrorMessage (jstr "\x7b\"error\":\"ProjectNotFound\"\x7d") ∧
      e.data = .jsv (safeParseJSON (jstr "\x7b\"error\":\"ProjectNotFound\"\x7d") false) ∧
      e.httpCode = .num 404 0 ∧
      e.parsing = false ∧
      e.cause = .jsv .null) ∧
    remoteErrorMessage (jstr "\x7b\"error\":\"ProjectNotFound\"\x7d") =
      .str (jstr "ProjectNotFound") :=
  ⟨doBasicRequest_remote_error wURL none idHook RequestType.JSON r404 _ rfl rfl, rfl⟩

/-- C4: for a 2xx response read as JSON, the executor resolves with the
parsed value on parse success, and rejects with `ParseJSONFailed`,
`parsing = true`, the raw text as `data` and the parse exception as `cause`
on parse failure. -/
theorem doBasicRequest_json_success (url : JStr) (options : Option ReqOptions)
    (apiClass : ApiHook) (r : FResponse) (text : JStr)
    (hok : r.ok = true) (htext : r.textResult = .ok text) :
    (∀ v, parseJSON text = .ok v →
      doBasicRequest url options apiClass RequestType.JSON (fun _ => .resp r) =
        .resolved (.val v)) ∧
    (∀ pe, parseJSON text = .error pe →
      ∃ e, doBasicRequest url options apiClass RequestType.JSON (fun _ => .resp r) =
          .rejected e ∧
        e.message = .str (jstr "ParseJSONFailed") ∧
        e.parsing = true ∧
        e.data = .jsv (.str text) ∧
        e.cause = .err pe ∧
        e.httpCode = .num r.status 0) := by
  have hbranch : ∀ res, parseJSON text = res →
      doBasicRequest url options apiClass RequestType.JSON (fun _ => .resp r) =
        (match res with
          | .ok v => .resolved (.val v)
          | .error err => .rejected (mkPMError (.str (jstr "ParseJSONFailed")) (.err err)
              (.num r.status 0) (.jsv (.str text)) true url
              (some (prepareOptions apiClass options url)) (some r) (.err err))) := by
    intro res hres
    simp only [doBasicRequest, handleFetchOutcome, hok, if_true, htext, hres]
    rw [if_neg (by decide), if_neg (by decide)]
  constructor
  · intro v hv
    rw [hbranch _ hv]
  · intro pe hpe
    rw [hbranch _ hpe]
    exact ⟨_, rfl, rfl, rfl, rfl, rfl, rfl⟩

/-- A 2xx response with the valid JSON body of the spec's example. -/
def r200 : FResponse := ⟨200, .ok (jstr "\x7b\"a\":1\x7d"), .ok []⟩

/-- A 2xx response whose body is not JSON. -/
def rNotJson : FResponse := ⟨200, .ok (jstr "not-json"), .ok []⟩

/-- Witness for C4 at the spec's examples: `{"a":1}` resolves with the parsed
object, and `not-json` rejects with `ParseJSONFailed`. -/
theorem doBasicRequest_json_success_witness :
    doBasicRequest wURL none idHook RequestType.JSON (fun _ => .resp r200) =
      .resolved (.val (.obj [(jstr "a", .num 1 0)])) ∧
    (∃ e, doBasicRequest wURL none idHook RequestType.JSON (fun _ => .resp rNotJson) =
        .rejected e ∧
      e.message = .str (jstr "ParseJSONFailed") ∧
      e.parsing = true ∧
      e.data = .jsv (.str (jstr "not-json")) ∧
      e.cause = .err jsonSyntaxError ∧
      e.httpCode = .num 200 0) :=
  ⟨(doBasicRequest_json_success wURL none idHook r200 _ rfl rfl).1 _ rfl,
    (doBasicRequest_json_success wURL none idHook rNotJson _ rfl rfl).2 jsonSyntaxError rfl⟩

/-- A host exception for a failing body read. -/
def e500 : JSErr := ⟨jstr "TypeError", jstr "body stream already read"⟩

/-- A 500 response whose `text()` read fails. -/
def r500 : FResponse := ⟨500, .error e500, .ok []⟩

/-- The error the executor produces for `r500`. -/
def e500Model : PenguinModAPIError :=
  mkPMError (.str (jstr "ParseTextFailed")) (.err e500) (.num 500 0) (.jsv .null) true wURL
    (some (prepareOptions idHook none wURL)) (some r500) (.err e500)

/-- C3 counterexample: a non-2xx (500) response whose body read fails makes
the executor reject with `parsing = true`, so `parsing` is not `false` for
every error arising from a non-2xx remote response, and it can be true for
errors not raised while interpreting a successful response. -/
theorem parsing_true_on_non2xx_counterexample :
    r500.ok = false ∧
    doBasicRequest wURL none idHook RequestType.Text (fun _ => .resp r500) =
      .rejected e500Model ∧
    e500Model.parsing = true :=
  ⟨rfl, rfl, rfl⟩

/-- Whether a transport outcome involves a failed body read or parse, judged
from the outcome alone: a failed `text()` read (2xx or not), a failed JSON
parse on a 2xx JSON-typed request, or a failed `arrayBuffer()` read on a 2xx
binary-typed request. -/
def bodyInterpFailed (requestType : JStr) (o : FetchOutcome) : Bool :=
  match o with
  | .reject _ => false
  | .resp r =>
    if r.ok then
      if requestType = RequestType.None then false
      else if requestType = RequestType.ArrayBuffer then
        (match r.bufResult with
          | .ok _ => false
          | .error _ => true)
      else
        match r.textResult with
        | .error _ => true
        | .ok t =>
          if requestType = RequestType.JSON then
            (match parseJSON t with
              | .ok _ => false
              | .error _ => true)
          else false
    else
      match r.textResult with
      | .ok _ => false
      | .error _ => true

/-- The `parsing` flag of every rejection equals `bodyInterpFailed` of the
outcome handled. -/
theorem parsing_handleFetchOutcome (url : JStr) (opts : ReqOptions) (requestType : JStr)
    (o : FetchOutcome) :
    match handleFetchOutcome url opts requestType o with
    | .rejected e => e.parsing = bodyInterpFailed requestType o
    | .resolved _ => True := by
  cases o with
  | reject err => exact rfl
  | resp r =>
    by_cases hok : r.ok = true
    · by_cases h1 : requestType = RequestType.None
      · simp [handleFetchOutcome, bodyInterpFailed, hok, h1]
      · by_cases h2 : requestType = RequestType.ArrayBuffer
        · cases hb : r.bufResult with
          | ok b =>
            simp [handleFetchOutcome, bodyInterpFailed, hok, h1, h2, hb,
              (by decide : RequestType.ArrayBuffer ≠ RequestType.None)]
          | error err2 =>
            simp [handleFetchOutcome, bodyInterpFailed, mkPMError, hok, h1, h2, hb,
              (by decide : RequestType.ArrayBuffer ≠ RequestType.None)]
        · cases ht : r.textResult with
          | error err2 =>
            simp [handleFetchOutcome, bodyInterpFailed, mkPMError, hok, h1, h2, ht]
          | ok t =>
            by_cases h3 : requestType = RequestType.JSON
            · cases hp : parseJSON t with
              | ok v =>
                simp [handleFetchOutcome, bodyInterpFailed, hok, h1, h2, h3, ht, hp,
                  (by decide : RequestType.JSON ≠ RequestType.None),
                  (by decide : RequestType.JSON ≠ RequestType.ArrayBuffer)]
              | error pe =>
                simp [handleFetchOutcome, bodyInterpFailed, mkPMError, hok, h1, h2, h3, ht, hp,
                  (by decide : RequestType.JSON ≠ RequestType.None),
                  (by decide : RequestType.JSON ≠ RequestType.ArrayBuffer)]
            · simp [handleFetchOutcome, bodyInterpFailed, hok, h1, h2, h3, ht]
    · cases ht : r.textResult with
      | ok t => simp [handleFetchOutcome, bodyInterpFailed, mkPMError, hok, ht]
      | error err2 => simp [handleFetchOutcome, bodyInterpFailed, mkPMError, hok, ht]

/-- C3 (amended): for every rejection of the basic executor, `parsing` is
true exactly when a response body read or parse failed — in particular it is
true for a non-2xx response whose `text()` read fails, so it is not
restricted to errors raised while interpreting a successful response. -/
theorem parsing_iff_body_interpretation_failed (url : JStr) (options : Option ReqOptions)
    (apiClass : ApiHook) (requestType : JStr) (o : FetchOutcome) :
    ∀ e, doBasicRequest url options apiClass requestType (fun _ => o) = .rejected e →
      e.parsing = bodyInterpFailed requestType o := by
  intro e h
  have H := parsing_handleFetchOutcome url (prepareOptions apiClass options url) requestType o
  have h2 : handleFetchOutcome url (prepareOptions apiClass options url) requestType o =
      .rejected e := h
  rw [h2] at H
  exact H

/-- Witness for the amended C3 at the 500-with-failed-read input: the
rejection hypothesis holds concretely and both sides evaluate to `true`. -/
theorem parsing_iff_body_interpretation_failed_witness :
    doBasicRequest wURL none idHook RequestType.Text (fun _ => .resp r500) =
      .rejected e500Model ∧
    e500Model.parsing = bodyInterpFailed RequestType.Text (.resp r500) ∧
    bodyInterpFailed RequestType.Text (.resp r500) = true :=
  ⟨rfl, parsing_iff_body_interpretation_failed wURL none idHook RequestType.Text
    (.resp r500) e500Model rfl, rfl⟩

/-- C7: `assert` on a falsy condition fails synchronously — its type involves
no transport, so no network call can occur — with the given message and
detail, the `ASSERT_FAILED` sentinel as `httpCode` (the `undefined` produced
by reading the absent static), `parsing = false` and null `cause`; on a
truthy condition it returns without failing. -/
theorem assert_behavior (val : JSVal) (url : JStr) (message : JSVal) (detail : RVal) :
    (truthy val = false →
      ∃ e, assert val url message detail = .error e ∧
        e.message = message ∧
        e.detail = jsToString detail ∧
        e.httpCode = PenguinModAPIError.ASSERT_FAILED ∧
        e.parsing = false ∧
        e.cause = .jsv .null ∧
        e.data = .jsv .null) ∧
    (truthy val = true → assert val url message detail = .ok ()) := by
  constructor
  · intro hv
    have hres : assert val url message detail =
        .error (mkPMError message detail PenguinModAPIError.ASSERT_FAILED (.jsv .null)
          false url none none (.jsv .null)) := by
      simp only [assert, hv, Bool.false_eq_true, if_false]
    exact ⟨_, hres, rfl, rfl, rfl, rfl, rfl, rfl⟩
  · intro hv
    simp only [assert, hv, if_true]

/-- Witness for C7 at the spec's example: `assert(false, url,
"Reauthenticate", "No token")` fails with exactly those fields, and a truthy
condition returns. -/
theorem assert_behavior_witness :
    (∃ e, assert (.bool false) wURL (.str (jstr "Reauthenticate"))
        (.jsv (.str (jstr "No token"))) = .error e ∧
      e.message = .str (jstr "Reauthenticate") ∧
      e.detail = jsToString (.jsv (.str (jstr "No token"))) ∧
      e.httpCode = PenguinModAPIError.ASSERT_FAILED ∧
      e.parsing = false ∧
      e.cause = .jsv .null ∧
      e.data = .jsv .null) ∧
    assert (.bool true) wURL (.str (jstr "Reauthenticate"))
      (.jsv (.str (jstr "No token"))) = .ok () :=
  ⟨(assert_behavior (.bool false) wURL (.str (jstr "Reauthenticate"))
      (.jsv (.str (jstr "No token")))).1 rfl,
    (assert_behavior (.bool true) wURL (.str (jstr "Reauthenticate"))
      (.jsv (.str (jstr "No token")))).2 rfl⟩

/-- C8: a cancelled multipart request rejects with `FormDataRequestAborted`
(not `FetchFailed`) carrying the original cancellation signal as `cause`;
every other axios failure rejects with `FormDataRequestFailed`, whose
`httpCode` is `UNKNOWN_CODE` when no server response was obtained and the
real response status when one was. -/
theorem doFormDataRequest_failure_taxonomy (url : JStr) (options : Option ReqOptions)
    (formData : Option Nat) (apiClass : ApiHook) (requestType : JStr) (err : AxError) :
    (err.isCancel = true →
      ∃ e, doFormDataRequest url options formData apiClass requestType
          (fun _ => .failure err) = .rejected e ∧
        e.message = .str (jstr "FormDataRequestAborted") ∧
        e.cause = .axErr err) ∧
    (err.isCancel = false →
      ∃ e, doFormDataRequest url options formData apiClass requestType
          (fun _ => .failure err) = .rejected e ∧
        e.message = .str (jstr "FormDataRequestFailed") ∧
        e.httpCode = (match err.response with
          | some r => .num r.status 0
          | none => PenguinModAPIError.UNKNOWN_CODE) ∧
        e.cause = .axErr err) := by
  constructor
  · intro hc
    have hres : doFormDataRequest url options formData apiClass requestType
        (fun _ => .failure err) =
        .rejected (mkPMError (.str (jstr "FormDataRequestAborted"))
          (.jsv (.str (jstr "FormDataRequestAborted"))) PenguinModAPIError.UNKNOWN_CODE
          (.jsv .null) false url (some (prepareOptions apiClass options url)) none
          (.axErr err)) := by
      simp only [doFormDataRequest, hc, if_true]
    exact ⟨_, hres, rfl, rfl⟩
  · intro hc
    have hres : doFormDataRequest url options formData apiClass requestType
        (fun _ => .failure err) =
        .rejected (mkPMError (.str (jstr "FormDataRequestFailed"))
          (.jsv (match err.response with
            | none => .str (jstr "FormDataRequestFailed")
            | some r =>
              if axDataTruthy r.data then
                if truthy (axDataGetField r.data (jstr "error")) then
                  axDataGetField r.data (jstr "error")
                else .str (jstr "FormDataRequestFailed")
              else .str (jstr "FormDataRequestFailed")))
          (match err.response with
            | some r => .num r.status 0
            | none => PenguinModAPIError.UNKNOWN_CODE)
          (match err.response with
            | some r => .axResp r
            | none => .jsv .undefined)
          false url (some (prepareOptions apiClass options url)) none (.axErr err)) := by
      simp only [doFormDataRequest, hc, Bool.false_eq_true, if_false]
    exact ⟨_, hres, rfl, rfl, rfl⟩

/-- A cancellation signal, as `axios.isCancel` recognizes one. -/
def axCancel : AxError := ⟨jstr "CanceledError", jstr "canceled", true, none⟩

/-- An axios failure that did obtain a server response (HTTP 413). -/
def axFail : AxError :=
  ⟨jstr "AxiosError", jstr "Request failed with status code 413", false,
    some ⟨413, .jsv (.obj [(jstr "error", .str (jstr "TooLarge"))])⟩⟩

/-- Witness for C8: a concrete cancellation and a concrete failure carrying a
413 response, each discharging its branch. -/
theorem doFormDataRequest_failure_taxonomy_witness :
    (∃ e, doFormDataRequest wURL none none idHook RequestType.JSON
        (fun _ => .failure axCancel) = .rejected e ∧
      e.message = .str (jstr "FormDataRequestAborted") ∧
      e.cause = .axErr axCancel) ∧
    (∃ e, doFormDataRequest wURL none none idHook RequestType.JSON
        (fun _ => .failure axFail) = .rejected e ∧
      e.message = .str (jstr "FormDataRequestFailed") ∧
      e.httpCode = (match axFail.response with
        | some r => .num r.status 0
        | none => PenguinModAPIError.UNKNOWN_CODE) ∧
      e.cause = .axErr axFail) :=
  ⟨(doFormDataRequest_failure_taxonomy wURL none none idHook RequestType.JSON axCancel).1 rfl,
    (doFormDataRequest_failure_taxonomy wURL none none idHook RequestType.JSON axFail).2 rfl⟩

/-- C9: the mutation hook runs on `(options, url)` before the request; its
result — or `{}` when it returns nothing — is what the tooling header is
attached to and is exactly what the transport receives; and the options
actually sent always carry `PenguinMod-Tooling: PenguinMod-ApiModule`,
whatever the hook returns. -/
theorem doBasicRequest_options_pipeline (url : JStr) (options : Option ReqOptions)
    (apiClass : ApiHook) :
    lookupG ((prepareOptions apiClass options url).headers.getD []) toolingHeaderName =
      some toolingHeaderValue ∧
    (∀ o, apiClass options url = some o →
      prepareOptions apiClass options url = addTooling o) ∧
    (apiClass options url = none →
      prepareOptions apiClass options url = addTooling { method := none, headers := none }) ∧
    (∀ requestType transport, doBasicRequest url options apiClass requestType transport =
      handleFetchOutcome url (prepareOptions apiClass options url) requestType
        (transport (prepareOptions apiClass options url))) := by
  refine ⟨?_, ?_, ?_, fun rt tr => rfl⟩
  · exact lookup_setKeyG_self _ _ _
  · intro o ho
    rw [prepareOptions, ho]
    rfl
  · intro ho
    rw [prepareOptions, ho]
    rfl

/-- Witness for C9 with the identity hook and explicit options: the header is
present and the prepared options are the hook's result with the header
attached. -/
theorem doBasicRequest_options_pipeline_witness :
    lookupG ((prepareOptions idHook (some ⟨some (jstr "POST"), none⟩) wURL).headers.getD [])
      toolingHeaderName = some toolingHeaderValue ∧
    prepareOptions idHook (some ⟨some (jstr "POST"), none⟩) wURL =
      addTooling ⟨some (jstr "POST"), none⟩ :=
  ⟨(doBasicRequest_options_pipeline wURL (some ⟨some (jstr "POST"), none⟩) idHook).1,
    (doBasicRequest_options_pipeline wURL (some ⟨some (jstr "POST"), none⟩) idHook).2.1 _ rfl⟩
